import Mathlib

/-!
Verification of the doodle-doc retrieval system against its specification.

The definitions below are shallow embeddings of the Python source:
scores are modelled as exact rationals (the Python code computes with
IEEE floats; none of the verified properties depends on rounding),
Python dicts are modelled as insertion-ordered association lists, and
Python's stable `sorted(..., reverse=True)` is modelled by a stable
descending insertion sort.
-/

/-- A page key. The Python code encodes it as the string
`"{doc_id}:{page_num}"` and decodes it with `split(":")`; since doc ids
are colon-free UUIDs this encoding is a bijection, so we model the key
directly as the pair `(doc_id, page_num)`. -/
abbrev PageKey : Type := String × Nat

/-- Per-row metadata of the single-vector index: the dict
`{doc_id, page_num, region}` stored in `FAISSIndex.id_to_metadata`. -/
structure RegionMeta where
  docId : String
  pageNum : Nat
  region : String
deriving DecidableEq

/-- First-match association-list lookup; models reading a Python dict
(entries are kept in insertion order and keys are unique). -/
def alookup {α β : Type} [DecidableEq α] (key : α) : List (α × β) → Option β
  | [] => none
  | p :: ps => if p.1 = key then some p.2 else alookup key ps

/-- Insert `x` in front of the first element whose score is not larger,
keeping elements with strictly larger score before it. -/
def insertByDesc {α : Type} (f : α → ℚ) (x : α) : List α → List α
  | [] => [x]
  | y :: ys => if f x < f y then y :: insertByDesc f x ys else x :: y :: ys

/-- Stable descending sort by a rational score; models Python's stable
`sorted(..., key=score, reverse=True)` / `list.sort(..., reverse=True)`. -/
def sortByScoreDesc {α : Type} (f : α → ℚ) : List α → List α
  | [] => []
  | x :: xs => insertByDesc f x (sortByScoreDesc f xs)

/-- One `scores[key] += delta` step of `reciprocal_rank_fusion`
(`scores` is a `defaultdict(float)`, so an absent key is appended with
value `0.0 + delta`). -/
def rrfAdd {α : Type} [DecidableEq α] (scores : List (α × ℚ)) (key : α) (delta : ℚ) :
    List (α × ℚ) :=
  match alookup key scores with
  | some _ => scores.map (fun p => if p.1 = key then (p.1, p.2 + delta) else p)
  | none => scores ++ [(key, delta)]

/-- The inner loop `for rank, (key, _) in enumerate(result_list, start=1)`
of `reciprocal_rank_fusion` (src/doodle_doc/search/fusion.py). -/
def rrfRanked {α : Type} [DecidableEq α] (k : ℚ) :
    Nat → List (α × ℚ) → List (α × ℚ) → List (α × ℚ)
  | _, acc, [] => acc
  | rank, acc, p :: rest => rrfRanked k (rank + 1) (rrfAdd acc p.1 (1 / (k + (rank : ℚ)))) rest

/-- `reciprocal_rank_fusion(result_lists, k=60)` from
src/doodle_doc/search/fusion.py: accumulate `1/(k + rank)` per key over
all lists, then sort items by score descending (Python's sort is
stable). Generic in the key type, as the Python function is duck-typed. -/
def reciprocal_rank_fusion {α : Type} [DecidableEq α]
    (resultLists : List (List (α × ℚ))) (k : ℚ) : List (α × ℚ) :=
  let scores := resultLists.foldl (fun acc l => rrfRanked k 1 acc l) []
  sortByScoreDesc (fun p => p.2) scores

/-- The scores a single ranked list receives from RRF as the spec
describes them: the entry at 0-based position `rank - r₀` gets score
`1/(k + rank)`, ranks starting at `r₀`. Used to state claim C8. -/
def rankedScores {α : Type} (k : ℚ) : Nat → List (α × ℚ) → List (α × ℚ)
  | _, [] => []
  | r, p :: rest => (p.1, 1 / (k + (r : ℚ))) :: rankedScores k (r + 1) rest

/-- One `page_scores[key] = max(page_scores[key], score)` step of
`SearchService._aggregate_by_page` (src/doodle_doc/search/retrieval.py).
`page_scores` is a `defaultdict(float)`: reading an absent key first
inserts `0.0`, so a new key is appended with value `max(0.0, score)`. -/
def aggStep (m : List (PageKey × ℚ)) (key : PageKey) (score : ℚ) : List (PageKey × ℚ) :=
  match alookup key m with
  | some _ => m.map (fun p => if p.1 = key then (p.1, max p.2 score) else p)
  | none => m ++ [(key, max 0 score)]

/-- `SearchService._aggregate_by_page(results)`: fold the region-level
hits into a per-page score dict. -/
def aggregate_by_page (results : List (RegionMeta × ℚ)) : List (PageKey × ℚ) :=
  results.foldl (fun m h => aggStep m (h.1.docId, h.1.pageNum) h.2) []

/-- The multiset of scores a given page receives in a region-hit list;
used to state claims about `aggregate_by_page`. -/
def scoresOf (key : PageKey) (hits : List (RegionMeta × ℚ)) : List ℚ :=
  hits.filterMap (fun h => if (h.1.docId, h.1.pageNum) = key then some h.2 else none)

/-- `FAISSIndex` (src/doodle_doc/ingestion/index.py): a flat
inner-product index, a row-major vector matrix plus the parallel
`id_to_metadata` list. -/
structure FaissIndex where
  embeddingDim : Nat
  vectors : List (List ℚ)
  metas : List RegionMeta

/-- Inner product of two vectors. -/
def dotQ (a b : List ℚ) : ℚ := (List.zipWith (fun x y => x * y) a b).foldl (fun x y => x + y) 0

/-- `FAISSIndex.search(query, k)`: exhaustive inner-product scan
returning the top-k `(metadata, score)` pairs ordered by score
descending, ties broken by smaller insertion index (the stable sort on
the insertion-ordered rows). faiss pads missing hits with index `-1`,
which the source filters out with `if idx >= 0`; taking at most `k`
elements of the full ranking models exactly that. `metas` is read at
the hit's row index, as `self.id_to_metadata[idx]` does. -/
def faissSearch (idx : FaissIndex) (q : List ℚ) (k : Nat) : List (RegionMeta × ℚ) :=
  let scored := idx.vectors.enum.map (fun p => (p.1, dotQ q p.2))
  let ranked := sortByScoreDesc (fun p => p.2) scored
  (ranked.take k).filterMap (fun p => (idx.metas.get? p.1).map (fun m => (m, p.2)))

/-- A row of the `documents` table (src/doodle_doc/core/database.py,
`DocumentModel`); `modified_time` is irrelevant to every claim and
elided. -/
structure DocumentRow where
  docId : String
  path : String
  sha256 : String
  numPages : Nat
deriving DecidableEq

/-- `Database.get_document(doc_id)`:
`session.query(DocumentModel).filter_by(doc_id=doc_id).first()`. -/
def dbGetDocument (db : List DocumentRow) (docId : String) : Option DocumentRow :=
  db.find? (fun d => decide (d.docId = docId))

/-- `Path(p).name`: the final path component (the characters after the
last separator). -/
def baseName (p : String) : String :=
  String.mk (p.data.foldl (fun acc c => if c = '/' then [] else acc ++ [c]) [])

/-- The fields of `core.models.SearchResult` that retrieval produces. -/
structure SearchResultR where
  docId : String
  docName : String
  pageNum : Nat
  score : ℚ
  stage : String
  thumbnailUrl : String
deriving DecidableEq

/-- The `Settings` fields (src/doodle_doc/core/config.py) that the
retrieval paths read. Defaults: `stage1_top_k=100`,
`default_result_k=20`, `enable_text_boost=True`. -/
structure RetrievalSettings where
  stage1TopK : Nat
  defaultResultK : Nat
  enableTextBoost : Bool

/-- The result-building loop of `SearchService.search`
(src/doodle_doc/search/retrieval.py lines 138-151): for each page key
in order, resolve the document via C5 and, when found, emit a
`SearchResult` whose score is `page_scores.get(page_key, 0.0)` — the
visual per-page dict, with default `0.0`. -/
def buildResults (db : List DocumentRow) (pageScores : List (PageKey × ℚ))
    (keys : List PageKey) : List SearchResultR :=
  keys.filterMap (fun key =>
    (dbGetDocument db key.1).map (fun doc =>
      { docId := key.1
        docName := baseName doc.path
        pageNum := key.2
        score := (alookup key pageScores).getD 0
        stage := "fast"
        thumbnailUrl := "/v1/thumb/" ++ key.1 ++ "/" ++ toString key.2 }))

/-- `SearchService.search` (src/doodle_doc/search/retrieval.py) in fast
mode with `use_rerank=False` (so `stage1_limit = top_k`). The sketch
normalization and the SigLIP2 embedder are external collaborators; the
function is modelled from the query embedding `qEmb` on. The BM25 index
is modelled by the collaborator function `bm25search`, standing for
`self.bm25.search` composed with the `"{doc_id}:{page_num}"` keying of
line 129. `top_k = top_k or self.settings.default_result_k` makes a
zero `top_k` fall back to the default, since `0` is falsy in Python;
likewise an empty `text_query` string is falsy and skips the fusion
branch. -/
def searchFast (settings : RetrievalSettings) (index : FaissIndex) (db : List DocumentRow)
    (bm25search : String → Nat → List (PageKey × ℚ)) (qEmb : List ℚ)
    (textQuery : Option String) (topK : Nat) : List SearchResultR :=
  let topKr := if topK = 0 then settings.defaultResultK else topK
  let stage1Limit := topKr
  let rawResults := faissSearch index qEmb settings.stage1TopK
  let pageScores := aggregate_by_page rawResults
  let sortedPages :=
    match textQuery with
    | some t =>
      if decide (t ≠ "") && settings.enableTextBoost then
        let textPageScores := bm25search t settings.stage1TopK
        let fused := reciprocal_rank_fusion [pageScores, textPageScores] 60
        (fused.take stage1Limit).map Prod.fst
      else
        ((sortByScoreDesc (fun p => p.2) pageScores).map Prod.fst).take stage1Limit
    | none => ((sortByScoreDesc (fun p => p.2) pageScores).map Prod.fst).take stage1Limit
  buildResults db pageScores sortedPages

/-- `ColQwen2SearchService.search` (src/doodle_doc/search/colqwen_search.py)
from the page-key enumeration on. The ColQwen2 embedder and the
torch-based `_compute_maxsim` do floating-point matrix math and are
external collaborators here, modelled by the opaque scorer `maxsim`
applied to each stored page matrix fetched by `getEmb` (pages whose
blob is missing are skipped, `if doc_emb is None: continue`). It shares
Python's `top_k or default` zero fallback. -/
def colqwenSearch (defaultK : Nat) (pages : List (String × Nat))
    (getEmb : String → Nat → Option (List (List ℚ)))
    (maxsim : List (List ℚ) → ℚ) (db : List DocumentRow) (topK : Nat) : List SearchResultR :=
  let topKr := if topK = 0 then defaultK else topK
  if pages.isEmpty then []
  else
    let scores := pages.filterMap (fun kp =>
      (getEmb kp.1 kp.2).map (fun m => (kp.1, kp.2, maxsim m)))
    let ranked := sortByScoreDesc (fun t => t.2.2) scores
    (ranked.take topKr).filterMap (fun t =>
      (dbGetDocument db t.1).map (fun doc =>
        { docId := t.1
          docName := baseName doc.path
          pageNum := t.2.1
          score := t.2.2
          stage := "colqwen2"
          thumbnailUrl := "/v1/thumb/" ++ t.1 ++ "/" ++ toString t.2.1 }))

/-- Length of the Python slice `a[lo:hi]` over a sequence of length
`len`, for non-negative bounds: indices are clamped into the sequence. -/
def sliceLen (len lo hi : Nat) : Nat := min hi len - min lo len

/-- The `(height, width)` of each region produced by `extract_regions`
(src/doodle_doc/ingestion/regions.py): `overlap = int(dim * pct)`
truncates, midpoints are integer halves, and quadrants are array
slices. For the overlaps that arise in the claims (`0 ≤ o < 1/2`) the
pixel overlap never exceeds the midpoint, so no Python negative index
arises and `Nat` subtraction is exact. -/
def extract_regions (h w : Nat) (o : ℚ) : List (String × Nat × Nat) :=
  let oy := (⌊o * (h : ℚ)⌋).toNat
  let ox := (⌊o * (w : ℚ)⌋).toNat
  let my := h / 2
  let mx := w / 2
  [ ("full", h, w),
    ("q1", sliceLen h 0 (my + oy), sliceLen w 0 (mx + ox)),
    ("q2", sliceLen h 0 (my + oy), sliceLen w (mx - ox) w),
    ("q3", sliceLen h (my - oy) h, sliceLen w 0 (mx + ox)),
    ("q4", sliceLen h (my - oy) h, sliceLen w (mx - ox) w) ]

/-- The retrieval metrics record (src/doodle_doc/eval/metrics.py,
`RetrievalMetrics`), scores as exact rationals. -/
structure RetrievalMetricsQ where
  recallAt1 : ℚ
  recallAt5 : ℚ
  recallAt10 : ℚ
  recallAt20 : ℚ
  mrr : ℚ
  numQueries : Nat

/-- `EvalRunner.compare_to_baseline` (src/doodle_doc/eval/runner.py
lines 199-223) restricted to the data it reads: the loaded baseline (or
`None`) and the current metrics. Returns the `(passed, message)` pair;
the numeric formatting inside the f-string messages is elided. -/
def compare_to_baseline (baseline : Option RetrievalMetricsQ)
    (current : RetrievalMetricsQ) (threshold : ℚ) : Bool × String :=
  match baseline with
  | none => (true, "No baseline found, skipping comparison")
  | some b =>
    let diff := b.recallAt10 - current.recallAt10
    if threshold < diff then (false, "REGRESSION: Recall@10 dropped")
    else (true, "OK")

/-- The methods defined on `core.database.Database`
(src/doodle_doc/core/database.py): the complete list of `def`s in the
class body. -/
def databaseMethods : List String :=
  [ "session", "get_document_by_sha256", "add_document", "add_page",
    "get_document", "get_all_documents", "get_pages_for_document" ]

/-- The methods and properties defined on `ingestion.index.FAISSIndex`
(src/doodle_doc/ingestion/index.py): the complete list of `def`s in the
class body. -/
def faissIndexMethods : List String :=
  [ "add", "search", "save", "load", "size" ]

/-- Python attribute resolution on a class given its method table:
`obj.attr` raises `AttributeError` when `attr` is not defined. -/
def resolveAttr (methods : List String) (cls attr : String) : Except String Unit :=
  if attr ∈ methods then Except.ok ()
  else Except.error ("AttributeError: " ++ cls ++ " has no attribute " ++ attr)

/-- The `remove_documents` route handler
(src/doodle_doc/api/routes/documents.py lines 65-84). For each doc id
the loop body first evaluates `state.db.delete_document(doc_id)` and
then `state.index.remove_by_doc_id(doc_id)`; both are attribute lookups
on the method tables above, so with a non-empty id list the handler
stops at the first lookup. With an empty list the loop is skipped, the
index is re-saved and `{"removed": 0}` is returned. The final `ok`
value models the `{"removed": len(request.doc_ids)}` response that the
handler would produce if the lookups succeeded; with the tables above
that branch is unreachable. -/
def remove_documents (docIds : List String) : Except String Nat :=
  match docIds with
  | [] => Except.ok 0
  | _ :: _ => do
    let _ ← resolveAttr databaseMethods "Database" "delete_document"
    let _ ← resolveAttr faissIndexMethods "FAISSIndex" "remove_by_doc_id"
    Except.ok docIds.length

/-- One rendered page of a PDF as the pipeline sees it: the extracted
text layer and the rendered bitmap's size. -/
structure PageInput where
  text : String
  width : Nat
  height : Nat
deriving DecidableEq

/-- A discovered PDF (`discover.PDFFile` together with its page list;
`get_page_count` is `pages.length`). -/
structure PdfInput where
  path : String
  sha256 : String
  pages : List PageInput
deriving DecidableEq

/-- The `Settings` fields that `IngestionPipeline` branches on. -/
structure PipelineConfig where
  maxPagesPerDoc : Nat
  colqwenEnabled : Bool

/-- A row of the `pages` table. -/
structure PageRow where
  docId : String
  pageNum : Nat
  width : Nat
  height : Nat
  textLayer : String
deriving DecidableEq

/-- The observable store state the ingestion pipeline writes:
C5 rows (`dbDocs`, `dbPages`), the C2 metadata sidecar (`indexMetas`,
one entry per stored vector), the C4 BM25 entries (`bm25Entries`,
pairs of text and page metadata as `BM25Index.add` records them), the
C3 manifest keys (`colqwenKeys`), and a fresh-name counter standing in
for `uuid.uuid4()`. -/
structure PipelineState where
  dbDocs : List DocumentRow
  dbPages : List PageRow
  indexMetas : List RegionMeta
  bm25Entries : List (String × String × Nat)
  colqwenKeys : List (String × Nat)
  nextDocId : Nat
deriving DecidableEq

/-- The store-write and store-save events an ingestion run performs, in
program order. `bm25Add`/`bm25Save` are the C4 operations
(`BM25Index.add` / `BM25Index.save`); they are constructors so that
their absence from a trace can be stated. -/
inductive PEvent where
  | dbAddDocument : String → PEvent
  | dbAddPage : String → Nat → PEvent
  | indexAdd : String → Nat → PEvent
  | colqwenAdd : String → Nat → PEvent
  | bm25Add : String → Nat → PEvent
  | indexSave : PEvent
  | colqwenSave : PEvent
  | bm25Save : PEvent
deriving DecidableEq

/-- `True` exactly for the events the per-PDF processing loop emits. -/
def isPdfProcessingEvent : PEvent → Bool
  | PEvent.dbAddDocument _ => true
  | PEvent.dbAddPage _ _ => true
  | PEvent.indexAdd _ _ => true
  | PEvent.colqwenAdd _ _ => true
  | _ => false

/-- The region tags in the order `extract_regions` yields them. -/
def regionNames : List String := ["full", "q1", "q2", "q3", "q4"]

/-- The per-page body of `IngestionPipeline._process_pdf`
(src/doodle_doc/ingestion/pipeline.py lines 160-202): render and save
the bitmap (filesystem, outside the store model), extract the text
layer, write the C5 page row, embed the five regions and append them to
C2, and add the ColQwen2 page matrix when that channel is enabled. The
text layer is written only into the C5 page row; the loop body contains
no call into the BM25 index. -/
def processPage (cfg : PipelineConfig) (docId : String) (pageNum : Nat) (page : PageInput)
    (st : PipelineState) : PipelineState × List PEvent :=
  let st1 := { st with dbPages :=
    st.dbPages ++ [(⟨docId, pageNum, page.width, page.height, page.text⟩ : PageRow)] }
  let st2 := { st1 with indexMetas :=
    st1.indexMetas ++ regionNames.map (fun r => (⟨docId, pageNum, r⟩ : RegionMeta)) }
  if cfg.colqwenEnabled then
    ({ st2 with colqwenKeys := st2.colqwenKeys ++ [(docId, pageNum)] },
     [PEvent.dbAddPage docId pageNum, PEvent.indexAdd docId pageNum,
      PEvent.colqwenAdd docId pageNum])
  else
    (st2, [PEvent.dbAddPage docId pageNum, PEvent.indexAdd docId pageNum])

/-- The `for page_num in range(num_pages)` loop of `_process_pdf`. -/
def processPages (cfg : PipelineConfig) (docId : String) :
    Nat → List PageInput → PipelineState → PipelineState × List PEvent
  | _, [], st => (st, [])
  | n, p :: ps, st =>
    let r1 := processPage cfg docId n p st
    let r2 := processPages cfg docId (n + 1) ps r1.1
    (r2.1, r1.2 ++ r2.2)

/-- `IngestionPipeline._process_pdf` (lines 137-202): allocate a fresh
doc id, clamp the page count to `max_pages_per_doc`, write the C5
document row, then process each page in order. -/
def processPdf (cfg : PipelineConfig) (st : PipelineState) (pdf : PdfInput) :
    PipelineState × List PEvent :=
  let docId := "doc-" ++ toString st.nextDocId
  let numPages := min pdf.pages.length cfg.maxPagesPerDoc
  let st0 := { st with
    nextDocId := st.nextDocId + 1,
    dbDocs := st.dbDocs ++ [⟨docId, pdf.path, pdf.sha256, numPages⟩] }
  let r := processPages cfg docId 0 (pdf.pages.take numPages) st0
  (r.1, PEvent.dbAddDocument docId :: r.2)

/-- The `for pdf in pdfs` loop of `IngestionPipeline.run`. -/
def processAll (cfg : PipelineConfig) :
    PipelineState → List PdfInput → PipelineState × List PEvent
  | st, [] => (st, [])
  | st, pdf :: rest =>
    let r1 := processPdf cfg st pdf
    let r2 := processAll cfg r1.1 rest
    (r2.1, r1.2 ++ r2.2)

/-- The final `IndexingProgress` value `IngestionPipeline.run` returns:
`docs_total`/`pages_total` counted after dedupe (`pages_total` from the
unclamped `get_page_count`), `docs_done` incremented per PDF,
`pages_done` per processed (clamped) page, `current_doc` left at the
last PDF's file name, status `"completed"`. -/
structure FinalProgress where
  docsDone : Nat
  docsTotal : Nat
  pagesDone : Nat
  pagesTotal : Nat
  currentDoc : String
  status : String
deriving DecidableEq

/-- `IngestionPipeline.run(root, force_reindex)`
(src/doodle_doc/ingestion/pipeline.py lines 99-135). `discovered` is
the deterministic result of `discover_pdfs(root)`. Unless forced,
`filter_unchanged` drops every file whose sha256 is already a document
hash in C5. Each surviving PDF is processed, then the C2 index is
saved, then — when the channel is enabled — the C3 manifest. No other
save happens: the run closes with those two events. -/
def runPipeline (cfg : PipelineConfig) (st : PipelineState) (discovered : List PdfInput)
    (forceReindex : Bool) : PipelineState × List PEvent × FinalProgress :=
  let existing := st.dbDocs.map (fun d => d.sha256)
  let pdfs := if forceReindex then discovered
    else discovered.filter (fun p => decide (p.sha256 ∉ existing))
  let r := processAll cfg st pdfs
  let saveEvents := [PEvent.indexSave] ++ (if cfg.colqwenEnabled then [PEvent.colqwenSave] else [])
  (r.1, r.2 ++ saveEvents,
   { docsDone := pdfs.length
     docsTotal := pdfs.length
     pagesDone := (pdfs.map (fun p => min p.pages.length cfg.maxPagesPerDoc)).sum
     pagesTotal := (pdfs.map (fun p => p.pages.length)).sum
     currentDoc := ((pdfs.getLast?).map (fun p => baseName p.path)).getD ""
     status := "completed" })

/-- The empty store state. -/
def emptyState : PipelineState := ⟨[], [], [], [], [], 0⟩

/-- A one-page PDF whose page has a non-empty text layer. -/
def pdfSample : PdfInput := ⟨"notes/a.pdf", "hash-a", [⟨"hello world", 100, 100⟩]⟩

/-- A pipeline configuration with the multi-vector channel enabled
(`max_pages_per_doc` at its default 500). -/
def cfgSample : PipelineConfig := ⟨500, true⟩

section Lemmas

/-- Looking a key up past a prefix in which it already occurs. -/
theorem alookup_append_of_some {α β : Type} [DecidableEq α] {key : α} {v : β}
    {m : List (α × β)} (n : List (α × β)) (h : alookup key m = some v) :
    alookup key (m ++ n) = some v := by
  induction m with
  | nil => simp [alookup] at h
  | cons p ps ih =>
    by_cases hp : p.1 = key
    · simp [alookup, hp] at h ⊢
      exact h
    · simp [alookup, hp] at h ⊢
      exact ih h

/-- Looking a key up past a prefix in which it does not occur. -/
theorem alookup_append_of_none {α β : Type} [DecidableEq α] {key : α}
    {m : List (α × β)} (n : List (α × β)) (h : alookup key m = none) :
    alookup key (m ++ n) = alookup key n := by
  induction m with
  | nil => simp
  | cons p ps ih =>
    by_cases hp : p.1 = key
    · simp [alookup, hp] at h
    · simp [alookup, hp] at h ⊢
      exact ih h

/-- Updating every entry of a key leaves lookups of that key mapped. -/
theorem alookup_update_eq {α β : Type} [DecidableEq α] (k : α) (f : β → β) :
    ∀ m : List (α × β),
      alookup k (m.map (fun p => if p.1 = k then (p.1, f p.2) else p)) = (alookup k m).map f
  | [] => by simp [alookup]
  | p :: ps => by
    by_cases hp : p.1 = k
    · simp [alookup, hp]
    · simp [alookup, hp]
      exact alookup_update_eq k f ps

/-- Updating the entries of one key leaves other keys' lookups alone. -/
theorem alookup_update_ne {α β : Type} [DecidableEq α] {k key2 : α} (f : β → β)
    (h : key2 ≠ k) :
    ∀ m : List (α × β),
      alookup key2 (m.map (fun p => if p.1 = k then (p.1, f p.2) else p)) = alookup key2 m
  | [] => by simp [alookup]
  | p :: ps => by
    have hkk : ¬ (k = key2) := fun hc => h hc.symm
    by_cases hp : p.1 = k
    · simp [alookup, hp, hkk]
      exact alookup_update_ne f h ps
    · by_cases hq : p.1 = key2
      · simp [alookup, hp, hq, h]
      · simp [alookup, hp, hq]
        exact alookup_update_ne f h ps

/-- `aggStep` at the stepped key: the stored value becomes the running
maximum, seeded with `0.0` by the `defaultdict` on first touch. -/
theorem alookup_aggStep_self (m : List (PageKey × ℚ)) (key : PageKey) (s : ℚ) :
    alookup key (aggStep m key s) =
      some (match alookup key m with | some v => max v s | none => max 0 s) := by
  cases h : alookup key m with
  | some v =>
    have := alookup_update_eq key (fun v => max v s) m
    simp [aggStep, h] at this ⊢
    exact this
  | none =>
    simp [aggStep, h]
    rw [alookup_append_of_none _ h]
    simp [alookup]

/-- `aggStep` leaves every other page's score unchanged. -/
theorem alookup_aggStep_ne (m : List (PageKey × ℚ)) {key key2 : PageKey} (s : ℚ)
    (h : key2 ≠ key) : alookup key2 (aggStep m key s) = alookup key2 m := by
  cases hm : alookup key m with
  | some v =>
    have := alookup_update_ne (fun v => max v s) h m
    simp [aggStep, hm] at this ⊢
    exact this
  | none =>
    cases h2 : alookup key2 m with
    | some v =>
      simp [aggStep, hm]
      exact alookup_append_of_some _ h2
    | none =>
      simp [aggStep, hm]
      rw [alookup_append_of_none _ h2]
      simp [alookup]
      exact fun hc => h hc.symm

/-- The accumulator-generalized description of the `_aggregate_by_page`
fold: a key already in the dict keeps folding `max` over its incoming
scores; a new key is seeded with `0.0` first. -/
theorem agg_fold_lookup :
    ∀ (hits : List (RegionMeta × ℚ)) (acc : List (PageKey × ℚ)) (key : PageKey),
      alookup key (hits.foldl (fun m h => aggStep m (h.1.docId, h.1.pageNum) h.2) acc) =
        match alookup key acc with
        | some v => some ((scoresOf key hits).foldl max v)
        | none =>
          if scoresOf key hits = [] then none else some ((scoresOf key hits).foldl max 0)
  | [], acc, key => by
    cases h : alookup key acc <;> simp [scoresOf, h]
  | h :: hs, acc, key => by
    by_cases hk : (h.1.docId, h.1.pageNum) = key
    · have hsc : scoresOf key (h :: hs) = h.2 :: scoresOf key hs := by
        simp [scoresOf, hk]
      simp only [List.foldl_cons, hk]
      have hrec := agg_fold_lookup hs (aggStep acc key h.2) key
      have hstep := alookup_aggStep_self acc key h.2
      cases hacc : alookup key acc with
      | some v =>
        rw [hacc] at hstep
        rw [hstep] at hrec
        simp only [hacc, hsc, List.foldl_cons]
        exact hrec
      | none =>
        rw [hacc] at hstep
        rw [hstep] at hrec
        simp only [hacc, hsc, List.foldl_cons]
        simpa using hrec
    · have hstep := alookup_aggStep_ne acc h.2 (fun hc : key = (h.1.docId, h.1.pageNum) => hk hc.symm)
      have hrec := agg_fold_lookup hs (aggStep acc (h.1.docId, h.1.pageNum) h.2) key
      rw [hstep] at hrec
      have hsc : scoresOf key (h :: hs) = scoresOf key hs := by
        simp [scoresOf, hk]
      simp only [List.foldl_cons, hsc]
      exact hrec

end Lemmas

/-- Claim C2 (counterexample): on the single region hit
`({doc_id: "d", page_num: 0, region: "full"}, -0.5)` the aggregation
maps page `("d", 0)` to `0.0` — `defaultdict(float)` seeds the running
maximum with `0.0` — and not to the claimed maximum region score
`-0.5`. -/
theorem aggregate_negative_counterexample :
    alookup ("d", 0) (aggregate_by_page [(⟨"d", 0, "full"⟩, -(1/2))]) = some 0 ∧
    alookup ("d", 0) (aggregate_by_page [(⟨"d", 0, "full"⟩, -(1/2))]) ≠ some (-(1/2)) := by
  constructor
  · norm_num [aggregate_by_page, aggStep, alookup, max_def]
  · norm_num [aggregate_by_page, aggStep, alookup, max_def]

/-- Claim C2 (amended): `_aggregate_by_page` maps each unique
`(doc_id, page_num)` occurring in the hit list to the maximum of `0.0`
and that page's region scores (the `defaultdict(float)` floors the
maximum at zero, which differs from the plain maximum exactly when all
of a page's region scores are negative); pages not in the hit list are
absent. -/
theorem aggregate_by_page_max (hits : List (RegionMeta × ℚ)) (key : PageKey) :
    alookup key (aggregate_by_page hits) =
      if scoresOf key hits = [] then none else some ((scoresOf key hits).foldl max 0) := by
  have h := agg_fold_lookup hits [] key
  simpa [alookup] using h

section SortLemmas

/-- A list already sorted weakly descending is a fixpoint of the stable
descending sort. -/
theorem sortByScoreDesc_of_pairwise {α : Type} (f : α → ℚ) :
    ∀ l : List α, l.Pairwise (fun a b => f b ≤ f a) → sortByScoreDesc f l = l
  | [], _ => rfl
  | x :: xs, h => by
    rcases List.pairwise_cons.mp h with ⟨hx, hxs⟩
    rw [sortByScoreDesc, sortByScoreDesc_of_pairwise f xs hxs]
    cases xs with
    | nil => rfl
    | cons y ys =>
      have hy : ¬ f x < f y := not_lt.mpr (hx y (by simp))
      simp [insertByDesc, hy]

/-- Every score in `rankedScores k r l` is `1/(k + j)` for some rank
`j ≥ r`. -/
theorem mem_rankedScores {α : Type} (k : ℚ) :
    ∀ (l : List (α × ℚ)) (r : Nat) (p : α × ℚ), p ∈ rankedScores k r l →
      ∃ j : Nat, r ≤ j ∧ p.2 = 1 / (k + (j : ℚ))
  | [], r, p, hp => by simp [rankedScores] at hp
  | q :: rest, r, p, hp => by
    simp only [rankedScores, List.mem_cons] at hp
    rcases hp with hp | hp
    · exact ⟨r, le_refl r, by rw [hp]⟩
    · rcases mem_rankedScores k rest (r + 1) p hp with ⟨j, hj1, hj2⟩
      exact ⟨j, by omega, hj2⟩

/-- For a non-negative `k` the scores `1/(k + rank)` are weakly
descending in the rank. -/
theorem rankedScores_pairwise {α : Type} {k : ℚ} (hk : 0 ≤ k) :
    ∀ (l : List (α × ℚ)) (r : Nat), 1 ≤ r →
      (rankedScores k r l).Pairwise (fun a b => b.2 ≤ a.2)
  | [], _, _ => by simp [rankedScores]
  | q :: rest, r, hr => by
    simp only [rankedScores]
    refine List.pairwise_cons.mpr ⟨?_, rankedScores_pairwise hk rest (r + 1) (by omega)⟩
    intro p hp
    rcases mem_rankedScores k rest (r + 1) p hp with ⟨j, hj1, hj2⟩
    rw [hj2]
    have h0 : (0 : ℚ) < k + (r : ℚ) := by
      have h1 : (1 : ℚ) ≤ (r : ℚ) := by exact_mod_cast hr
      linarith
    have hle : k + (r : ℚ) ≤ k + (j : ℚ) := by
      have h2 : (r : ℚ) ≤ (j : ℚ) := by
        exact_mod_cast (by omega : r ≤ j)
      linarith
    exact one_div_le_one_div_of_le h0 hle

/-- `rankedScores` keeps the keys in input order. -/
theorem rankedScores_map_fst {α : Type} (k : ℚ) :
    ∀ (r : Nat) (l : List (α × ℚ)), (rankedScores k r l).map Prod.fst = l.map Prod.fst
  | _, [] => rfl
  | r, q :: rest => by
    simp [rankedScores, rankedScores_map_fst k (r + 1) rest]

/-- Folding one ranked list whose keys are fresh and pairwise distinct
appends exactly the `1/(k + rank)` entries in list order. -/
theorem rrfRanked_disjoint {α : Type} [DecidableEq α] (k : ℚ) :
    ∀ (l : List (α × ℚ)) (r : Nat) (acc : List (α × ℚ)),
      (∀ p ∈ l, alookup p.1 acc = none) → (l.map Prod.fst).Nodup →
      rrfRanked k r acc l = acc ++ rankedScores k r l
  | [], r, acc, _, _ => by simp [rrfRanked, rankedScores]
  | q :: rest, r, acc, hdisj, hnd => by
    have hq : alookup q.1 acc = none := hdisj q (by simp)
    have hnd2 : (q.1 :: rest.map Prod.fst).Nodup := by simpa using hnd
    have hndc := List.nodup_cons.mp hnd2
    have hne : ∀ p ∈ rest, p.1 ≠ q.1 := by
      intro p hp hc
      exact hndc.1 (by rw [← hc]; exact List.mem_map_of_mem Prod.fst hp)
    have hdisj2 : ∀ p ∈ rest, alookup p.1 (acc ++ [(q.1, 1 / (k + (r : ℚ)))]) = none := by
      intro p hp
      rw [alookup_append_of_none _ (hdisj p (List.mem_cons_of_mem q hp))]
      simp [alookup, Ne.symm (hne p hp)]
    simp only [rrfRanked]
    have hadd : rrfAdd acc q.1 (1 / (k + (r : ℚ))) = acc ++ [(q.1, 1 / (k + (r : ℚ)))] := by
      simp [rrfAdd, hq]
    rw [hadd, rrfRanked_disjoint k rest (r + 1) _ hdisj2 hndc.2]
    simp [rankedScores]

end SortLemmas

/-- Claim C8: reciprocal rank fusion of a single ranked list with pairwise
distinct keys assigns the key at 1-based rank `r` the score
`1/(60 + r)` and returns the keys in the input order. -/
theorem rrf_single_list (l : List (String × ℚ)) (hnd : (l.map Prod.fst).Nodup) :
    reciprocal_rank_fusion [l] 60 = rankedScores 60 1 l ∧
    (reciprocal_rank_fusion [l] 60).map Prod.fst = l.map Prod.fst := by
  have hfold : rrfRanked (60 : ℚ) 1 ([] : List (String × ℚ)) l = rankedScores 60 1 l := by
    have hd0 : ∀ p ∈ l, alookup p.1 ([] : List (String × ℚ)) = none := by
      intro p hp
      rfl
    have h := rrfRanked_disjoint (60 : ℚ) l 1 [] hd0 hnd
    simpa using h
  have hpair : (rankedScores (60 : ℚ) 1 l).Pairwise (fun a b => b.2 ≤ a.2) :=
    rankedScores_pairwise (by norm_num) l 1 (le_refl 1)
  have hmain : reciprocal_rank_fusion [l] 60 = rankedScores 60 1 l := by
    simp only [reciprocal_rank_fusion, List.foldl_cons, List.foldl_nil]
    rw [hfold]
    exact sortByScoreDesc_of_pairwise (fun p : String × ℚ => p.2) _ hpair
  exact ⟨hmain, by rw [hmain, rankedScores_map_fst]⟩

/-- Witness for C8 at the concrete list `[("a", 3.0), ("b", 1.0)]`. -/
theorem rrf_single_list_witness :
    (([ ("a", (3 : ℚ)), ("b", 1) ].map Prod.fst).Nodup) ∧
    reciprocal_rank_fusion [[ ("a", (3 : ℚ)), ("b", 1) ]] 60 =
      rankedScores 60 1 [ ("a", (3 : ℚ)), ("b", 1) ] ∧
    (reciprocal_rank_fusion [[ ("a", (3 : ℚ)), ("b", 1) ]] 60).map Prod.fst = [ "a", "b" ] := by
  refine ⟨by decide, (rrf_single_list _ (by decide)).1, ?_⟩
  rw [(rrf_single_list _ (by decide)).2]
  rfl

/-- Claim C9: with a baseline present, `compare_to_baseline` returns
`passed = false` exactly when `baseline.recall@10 − current.recall@10`
strictly exceeds the threshold; at baseline `0.72` and threshold `0.05`
a current `0.65` fails and a current `0.70` passes. -/
theorem compare_to_baseline_regression :
    (∀ (b c : RetrievalMetricsQ) (t : ℚ),
      ((compare_to_baseline (some b) c t).1 = false ↔ t < b.recallAt10 - c.recallAt10)) ∧
    (compare_to_baseline (some ⟨0, 0, 72/100, 0, 0, 0⟩) ⟨0, 0, 65/100, 0, 0, 0⟩ (5/100)).1
      = false ∧
    (compare_to_baseline (some ⟨0, 0, 72/100, 0, 0, 0⟩) ⟨0, 0, 70/100, 0, 0, 0⟩ (5/100)).1
      = true := by
  refine ⟨?_, ?_, ?_⟩
  · intro b c t
    by_cases hd : t < b.recallAt10 - c.recallAt10
    · simp [compare_to_baseline, hd]
    · simp [compare_to_baseline, hd]
  · norm_num [compare_to_baseline]
  · norm_num [compare_to_baseline]

/-- Claim C1 (code bug): `DELETE /v1/documents` with any non-empty id list
stops with an `AttributeError` because `Database` defines no
`delete_document` and `FAISSIndex` defines no `remove_by_doc_id`; the
removal therefore never completes, so the stores keep reporting the
document (and the handler never references the C3 store at all). -/
theorem remove_documents_attribute_error :
    remove_documents ["doc-1"] =
      Except.error "AttributeError: Database has no attribute delete_document" ∧
    "delete_document" ∉ databaseMethods ∧ "remove_by_doc_id" ∉ faissIndexMethods :=
  ⟨rfl, by decide, by decide⟩

/-- Claim C3 (code bug): processing a one-page PDF whose text layer is the
non-empty string `"hello world"` leaves the BM25 text index untouched —
the per-page loop performs only the C5, C2 and C3 writes; no BM25 add
event is ever emitted, so the page can never be returned by the
text-search channel. -/
theorem pipeline_never_populates_bm25 :
    pdfSample.pages = [⟨"hello world", 100, 100⟩] ∧
    "hello world" ≠ "" ∧
    (processPdf cfgSample emptyState pdfSample).1.bm25Entries = [] ∧
    (processPdf cfgSample emptyState pdfSample).2 =
      [ PEvent.dbAddDocument "doc-0", PEvent.dbAddPage "doc-0" 0,
        PEvent.indexAdd "doc-0" 0, PEvent.colqwenAdd "doc-0" 0 ] :=
  ⟨rfl, by decide, by decide, by decide⟩

/-- Claim C4 (counterexample): on an index holding one vector for page
`("d", 0)` and a database knowing `"d"`, fast-mode search with
`top_k = 0` returns that page rather than the empty list — Python's
`top_k or default_result_k` treats `0` as unset. -/
theorem searchFast_topk_zero_counterexample :
    searchFast ⟨100, 20, true⟩ ⟨1, [[1]], [⟨"d", 0, "full"⟩]⟩
      [⟨"d", "notes.pdf", "h", 1⟩] (fun _ _ => []) [1] none 0 =
      [⟨"d", "notes.pdf", 0, 1, "fast", "/v1/thumb/d/0"⟩] ∧
    searchFast ⟨100, 20, true⟩ ⟨1, [[1]], [⟨"d", 0, "full"⟩]⟩
      [⟨"d", "notes.pdf", "h", 1⟩] (fun _ _ => []) [1] none 0 ≠ [] := by
  have h : searchFast ⟨100, 20, true⟩ ⟨1, [[1]], [⟨"d", 0, "full"⟩]⟩
      [⟨"d", "notes.pdf", "h", 1⟩] (fun _ _ => []) [1] none 0 =
      [⟨"d", "notes.pdf", 0, 1, "fast", "/v1/thumb/d/0"⟩] := by
    norm_num [searchFast, faissSearch, dotQ, aggregate_by_page, aggStep, alookup, max_def,
      sortByScoreDesc, insertByDesc, buildResults, dbGetDocument, baseName, List.enum,
      List.filterMap_cons, List.find?]
    decide
  refine ⟨h, ?_⟩
  rw [h]
  simp

/-- Claim C4 (amended): both search entry points substitute the configured
default for `top_k = 0` — `top_k = top_k or self.settings.default_result_k`
in `SearchService.search` and the same pattern in
`ColQwen2SearchService.search` — so a zero `top_k` behaves exactly like
the default result count instead of returning an empty list. -/
theorem search_topk_zero_is_default :
    (∀ (settings : RetrievalSettings) (index : FaissIndex) (db : List DocumentRow)
       (bm25f : String → Nat → List (PageKey × ℚ)) (q : List ℚ) (t : Option String),
       searchFast settings index db bm25f q t 0 =
         searchFast settings index db bm25f q t settings.defaultResultK) ∧
    (∀ (dK : Nat) (pages : List (String × Nat))
       (getEmb : String → Nat → Option (List (List ℚ)))
       (ms : List (List ℚ) → ℚ) (db : List DocumentRow),
       colqwenSearch dK pages getEmb ms db 0 = colqwenSearch dK pages getEmb ms db dK) := by
  constructor
  · intro settings index db bm25f q t
    by_cases h : settings.defaultResultK = 0
    · simp [searchFast, h]
    · simp [searchFast, h]
  · intro dK pages getEmb ms db
    by_cases h : dK = 0
    · simp [colqwenSearch, h]
    · simp [colqwenSearch, h]

section PipelineLemmas

/-- Page processing never touches the documents table. -/
theorem processPage_dbDocs (cfg : PipelineConfig) (d : String) (n : Nat) (p : PageInput)
    (st : PipelineState) : (processPage cfg d n p st).1.dbDocs = st.dbDocs := by
  by_cases h : cfg.colqwenEnabled <;> simp [processPage, h]

/-- Page processing never touches the BM25 entries. -/
theorem processPage_bm25 (cfg : PipelineConfig) (d : String) (n : Nat) (p : PageInput)
    (st : PipelineState) : (processPage cfg d n p st).1.bm25Entries = st.bm25Entries := by
  by_cases h : cfg.colqwenEnabled <;> simp [processPage, h]

/-- Page processing emits only per-PDF processing events. -/
theorem processPage_events (cfg : PipelineConfig) (d : String) (n : Nat) (p : PageInput)
    (st : PipelineState) :
    ∀ e ∈ (processPage cfg d n p st).2, isPdfProcessingEvent e = true := by
  intro e he
  by_cases h : cfg.colqwenEnabled
  · simp [processPage, h] at he
    rcases he with rfl | rfl | rfl <;> rfl
  · simp [processPage, h] at he
    rcases he with rfl | rfl <;> rfl

/-- The page loop never touches the documents table. -/
theorem processPages_dbDocs (cfg : PipelineConfig) (d : String) :
    ∀ (ps : List PageInput) (n : Nat) (st : PipelineState),
      (processPages cfg d n ps st).1.dbDocs = st.dbDocs
  | [], _, _ => rfl
  | p :: ps, n, st => by
    simp only [processPages]
    rw [processPages_dbDocs cfg d ps (n + 1) (processPage cfg d n p st).1,
      processPage_dbDocs]

/-- The page loop never touches the BM25 entries. -/
theorem processPages_bm25 (cfg : PipelineConfig) (d : String) :
    ∀ (ps : List PageInput) (n : Nat) (st : PipelineState),
      (processPages cfg d n ps st).1.bm25Entries = st.bm25Entries
  | [], _, _ => rfl
  | p :: ps, n, st => by
    simp only [processPages]
    rw [processPages_bm25 cfg d ps (n + 1) (processPage cfg d n p st).1,
      processPage_bm25]

/-- The page loop emits only per-PDF processing events. -/
theorem processPages_events (cfg : PipelineConfig) (d : String) :
    ∀ (ps : List PageInput) (n : Nat) (st : PipelineState),
      ∀ e ∈ (processPages cfg d n ps st).2, isPdfProcessingEvent e = true
  | [], _, _ => by simp [processPages]
  | p :: ps, n, st => by
    intro e he
    simp only [processPages, List.mem_append] at he
    rcases he with he | he
    · exact processPage_events cfg d n p st e he
    · exact processPages_events cfg d ps (n + 1) (processPage cfg d n p st).1 e he

/-- Processing one PDF appends exactly its hash to the document
hashes. -/
theorem processPdf_sha (cfg : PipelineConfig) (st : PipelineState) (pdf : PdfInput) :
    (processPdf cfg st pdf).1.dbDocs.map (fun d => d.sha256) =
      st.dbDocs.map (fun d => d.sha256) ++ [pdf.sha256] := by
  simp [processPdf, processPages_dbDocs]

/-- Processing one PDF never touches the BM25 entries. -/
theorem processPdf_bm25 (cfg : PipelineConfig) (st : PipelineState) (pdf : PdfInput) :
    (processPdf cfg st pdf).1.bm25Entries = st.bm25Entries := by
  simp [processPdf, processPages_bm25]

/-- Processing one PDF emits only per-PDF processing events. -/
theorem processPdf_events (cfg : PipelineConfig) (st : PipelineState) (pdf : PdfInput) :
    ∀ e ∈ (processPdf cfg st pdf).2, isPdfProcessingEvent e = true := by
  intro e he
  simp only [processPdf, List.mem_cons] at he
  rcases he with rfl | he
  · rfl
  · exact processPages_events cfg _ _ 0 _ e he

/-- The PDF loop appends exactly the processed hashes in order. -/
theorem processAll_sha (cfg : PipelineConfig) :
    ∀ (pdfs : List PdfInput) (st : PipelineState),
      (processAll cfg st pdfs).1.dbDocs.map (fun d => d.sha256) =
        st.dbDocs.map (fun d => d.sha256) ++ pdfs.map (fun p => p.sha256)
  | [], st => by simp [processAll]
  | pdf :: rest, st => by
    simp only [processAll]
    rw [processAll_sha cfg rest (processPdf cfg st pdf).1, processPdf_sha]
    simp

/-- The PDF loop never touches the BM25 entries. -/
theorem processAll_bm25 (cfg : PipelineConfig) :
    ∀ (pdfs : List PdfInput) (st : PipelineState),
      (processAll cfg st pdfs).1.bm25Entries = st.bm25Entries
  | [], st => rfl
  | pdf :: rest, st => by
    simp only [processAll]
    rw [processAll_bm25 cfg rest (processPdf cfg st pdf).1, processPdf_bm25]

/-- The PDF loop emits only per-PDF processing events. -/
theorem processAll_events (cfg : PipelineConfig) :
    ∀ (pdfs : List PdfInput) (st : PipelineState),
      ∀ e ∈ (processAll cfg st pdfs).2, isPdfProcessingEvent e = true
  | [], _ => by simp [processAll]
  | pdf :: rest, st => by
    intro e he
    simp only [processAll, List.mem_append] at he
    rcases he with he | he
    · exact processPdf_events cfg st pdf e he
    · exact processAll_events cfg rest (processPdf cfg st pdf).1 e he

/-- The event trace of a run: the processing events followed by the C2
save and then, when enabled, the C3 save. -/
theorem runPipeline_events (cfg : PipelineConfig) (st : PipelineState)
    (discovered : List PdfInput) (force : Bool) :
    (runPipeline cfg st discovered force).2.1 =
      (processAll cfg st (if force then discovered
        else discovered.filter
          (fun p => decide (p.sha256 ∉ st.dbDocs.map (fun d => d.sha256))))).2
      ++ [PEvent.indexSave]
      ++ (if cfg.colqwenEnabled then [PEvent.colqwenSave] else []) := by
  simp [runPipeline, List.append_assoc]

/-- The state after a run is the state after processing the deduped
list. -/
theorem runPipeline_state (cfg : PipelineConfig) (st : PipelineState)
    (discovered : List PdfInput) (force : Bool) :
    (runPipeline cfg st discovered force).1 =
      (processAll cfg st (if force then discovered
        else discovered.filter
          (fun p => decide (p.sha256 ∉ st.dbDocs.map (fun d => d.sha256))))).1 := by
  simp [runPipeline]

end PipelineLemmas

/-- Claim C5 (counterexample): for the one-page ingest of `pdfSample` with
the multi-vector channel enabled, the C2 index save happens before the
C3 manifest save — not after it — and no C4 save occurs anywhere in the
trace, contradicting the claimed save order. -/
theorem ingest_save_order_counterexample :
    (runPipeline cfgSample emptyState [pdfSample] false).2.1 =
      [ PEvent.dbAddDocument "doc-0", PEvent.dbAddPage "doc-0" 0, PEvent.indexAdd "doc-0" 0,
        PEvent.colqwenAdd "doc-0" 0, PEvent.indexSave, PEvent.colqwenSave ] ∧
    ¬ (List.indexOf PEvent.colqwenSave (runPipeline cfgSample emptyState [pdfSample] false).2.1 <
       List.indexOf PEvent.indexSave (runPipeline cfgSample emptyState [pdfSample] false).2.1) ∧
    PEvent.bm25Save ∉ (runPipeline cfgSample emptyState [pdfSample] false).2.1 := by
  refine ⟨by decide, by decide, by decide⟩

/-- Claim C5 (amended): every ingestion run's trace consists of the
per-document store writes (all C5/C2/C3 adds, committed as they
happen), then the C2 index save, then — when the multi-vector channel
is enabled — the C3 manifest save. The C4 text index is never saved
(nor written), and there is no end-of-run C5 session close: C2 is saved
before C3, not after, so the order claimed for crash safety does not
hold. -/
theorem ingest_save_order (cfg : PipelineConfig) (st : PipelineState)
    (discovered : List PdfInput) (force : Bool) :
    ∃ pre,
      (runPipeline cfg st discovered force).2.1 =
        pre ++ [PEvent.indexSave]
        ++ (if cfg.colqwenEnabled then [PEvent.colqwenSave] else []) ∧
      (∀ e ∈ pre, isPdfProcessingEvent e = true) ∧
      PEvent.bm25Save ∉ (runPipeline cfg st discovered force).2.1 ∧
      (∀ d n, PEvent.bm25Add d n ∉ (runPipeline cfg st discovered force).2.1) := by
  refine ⟨(processAll cfg st (if force then discovered
    else discovered.filter
      (fun p => decide (p.sha256 ∉ st.dbDocs.map (fun d => d.sha256))))).2,
    runPipeline_events cfg st discovered force, processAll_events cfg _ st, ?_, ?_⟩
  · rw [runPipeline_events cfg st discovered force]
    intro hmem
    simp only [List.mem_append] at hmem
    rcases hmem with (hmem | hmem) | hmem
    · have := processAll_events cfg _ st PEvent.bm25Save hmem
      simp [isPdfProcessingEvent] at this
    · simp at hmem
    · by_cases h : cfg.colqwenEnabled <;> simp [h] at hmem
  · intro d n
    rw [runPipeline_events cfg st discovered force]
    intro hmem
    simp only [List.mem_append] at hmem
    rcases hmem with (hmem | hmem) | hmem
    · have := processAll_events cfg _ st (PEvent.bm25Add d n) hmem
      simp [isPdfProcessingEvent] at this
    · simp at hmem
    · by_cases h : cfg.colqwenEnabled <;> simp [h] at hmem

/-- Claim C7: re-running ingestion over the same discovered set with
`force=false` is a no-op: the dedupe step drops every file whose sha256
the first run recorded in C5, so the second run leaves the whole store
state (documents, pages, index vectors, manifest) unchanged and its
progress reports zero documents and pages to process. -/
theorem reingest_noop (cfg : PipelineConfig) (st : PipelineState)
    (discovered : List PdfInput) :
    (runPipeline cfg (runPipeline cfg st discovered false).1 discovered false).1 =
      (runPipeline cfg st discovered false).1 ∧
    (runPipeline cfg (runPipeline cfg st discovered false).1 discovered false).2.2.docsTotal
      = 0 ∧
    (runPipeline cfg (runPipeline cfg st discovered false).1 discovered false).2.2.docsDone
      = 0 ∧
    (runPipeline cfg (runPipeline cfg st discovered false).1 discovered false).2.2.pagesTotal
      = 0 ∧
    (runPipeline cfg (runPipeline cfg st discovered false).1 discovered false).2.2.pagesDone
      = 0 := by
  have hsha : ∀ p ∈ discovered,
      p.sha256 ∈ (runPipeline cfg st discovered false).1.dbDocs.map (fun d => d.sha256) := by
    intro p hp
    rw [runPipeline_state]
    simp only [if_neg Bool.false_ne_true]
    rw [processAll_sha]
    by_cases hmem : p.sha256 ∈ st.dbDocs.map (fun d => d.sha256)
    · exact List.mem_append_left _ hmem
    · refine List.mem_append_right _ ?_
      have hpf : p ∈ discovered.filter
          (fun p => decide (p.sha256 ∉ st.dbDocs.map (fun d => d.sha256))) := by
        rw [List.mem_filter]
        exact ⟨hp, by simpa using hmem⟩
      exact List.mem_map_of_mem (fun p => p.sha256) hpf
  set st1 := (runPipeline cfg st discovered false).1 with hst1
  have hfilter : discovered.filter
      (fun p => decide (p.sha256 ∉ st1.dbDocs.map (fun d => d.sha256))) = [] := by
    rw [List.filter_eq_nil_iff]
    intro p hp
    simpa using hsha p hp
  simp only [runPipeline, if_neg Bool.false_ne_true, hfilter]
  simp [processAll]

/-- Claim C6 (counterexample): on a 4x4 image with overlap `o = 0.1` the
pixel overlap `int(0.1 * 4)` truncates to zero, so every quadrant is
exactly 2x2 — not strictly greater than half the input in either
axis — even though `0 < o < 0.5`. -/
theorem extract_regions_counterexample :
    ((0 : ℚ) < 1/10 ∧ (1 : ℚ)/10 < 1/2) ∧
    ¬ (∀ s ∈ extract_regions 4 4 (1/10), s.1 ≠ "full" →
        (((4 : Nat) : ℚ)/2 < (s.2.1 : ℚ) ∧ ((4 : Nat) : ℚ)/2 < (s.2.2 : ℚ))) := by
  have hcomp : extract_regions 4 4 (1/10) =
      [ ("full", 4, 4), ("q1", 2, 2), ("q2", 2, 2), ("q3", 2, 2), ("q4", 2, 2) ] := by
    norm_num [extract_regions, sliceLen]
  refine ⟨by norm_num, fun hall => ?_⟩
  have h := hall ("q1", 2, 2) (by rw [hcomp]; simp) (by decide)
  norm_num at h

/-- The two arithmetic consequences of a positive truncated pixel
overlap under `o < 1/2`: it is at least one pixel and less than half
the axis. -/
theorem overlapPixelFacts (n : Nat) (o : ℚ) (ho2 : o < 1/2) (hn : 1 ≤ ⌊o * (n : ℚ)⌋) :
    1 ≤ (⌊o * (n : ℚ)⌋).toNat ∧ 2 * (⌊o * (n : ℚ)⌋).toNat < n := by
  have hpos : 0 < n := by
    by_contra hh
    have h0 : n = 0 := by omega
    rw [h0] at hn
    norm_num at hn
  have h1 : 1 ≤ (⌊o * (n : ℚ)⌋).toNat := by
    have h2 := Int.toNat_le_toNat hn
    simpa using h2
  have hfl : (⌊o * (n : ℚ)⌋ : ℚ) ≤ o * n := Int.floor_le _
  have hlt : o * (n : ℚ) < (1/2) * n := by
    apply mul_lt_mul_of_pos_right ho2
    exact_mod_cast hpos
  have h2q : 2 * ((⌊o * (n : ℚ)⌋ : ℤ) : ℚ) < (n : ℚ) := by
    linarith
  have h2z : 2 * ⌊o * (n : ℚ)⌋ < (n : ℤ) := by exact_mod_cast h2q
  have hnn : (0 : ℤ) ≤ ⌊o * (n : ℚ)⌋ := le_trans (by norm_num) hn
  have h2n : 2 * (⌊o * (n : ℚ)⌋).toNat < n := by
    have h3 := Int.toNat_of_nonneg hnn
    omega
  exact ⟨h1, h2n⟩

/-- Claim C6 (amended): each quadrant produced by `extract_regions` is
strictly larger than half the input in both axes whenever the truncated
pixel overlap is at least one pixel in each axis — `⌊o·H⌋ ≥ 1` and
`⌊o·W⌋ ≥ 1`, with `0 < o < 0.5`. When the truncation yields zero pixels
(small images relative to `1/o`) a quadrant can be exactly half of the
input or smaller, as the counterexample shows. -/
theorem extract_regions_quadrants (h w : Nat) (o : ℚ) (ho : 0 < o) (ho2 : o < 1/2)
    (hy : 1 ≤ ⌊o * (h : ℚ)⌋) (hx : 1 ≤ ⌊o * (w : ℚ)⌋) :
    ∀ s ∈ extract_regions h w o, s.1 ≠ "full" →
      ((h : ℚ)/2 < (s.2.1 : ℚ) ∧ (w : ℚ)/2 < (s.2.2 : ℚ)) := by
  obtain ⟨hoy1, hoy2⟩ := overlapPixelFacts h o ho2 hy
  obtain ⟨hox1, hox2⟩ := overlapPixelFacts w o ho2 hx
  have hcast : ∀ m n : Nat, m < 2 * n → (m : ℚ)/2 < (n : ℚ) := by
    intro m n hmn
    rw [div_lt_iff₀ (by norm_num : (0 : ℚ) < 2)]
    exact_mod_cast (by omega : m < n * 2)
  intro s hs hne
  simp only [extract_regions, List.mem_cons, List.not_mem_nil, or_false] at hs
  rcases hs with rfl | rfl | rfl | rfl | rfl
  · exact absurd rfl hne
  · exact ⟨hcast _ _ (by simp only [sliceLen]; omega), hcast _ _ (by simp only [sliceLen]; omega)⟩
  · exact ⟨hcast _ _ (by simp only [sliceLen]; omega), hcast _ _ (by simp only [sliceLen]; omega)⟩
  · exact ⟨hcast _ _ (by simp only [sliceLen]; omega), hcast _ _ (by simp only [sliceLen]; omega)⟩
  · exact ⟨hcast _ _ (by simp only [sliceLen]; omega), hcast _ _ (by simp only [sliceLen]; omega)⟩

/-- Witness for the amended C6 on a 20x20 image with `o = 0.1`
(overlap `⌊2⌋ = 2` pixels): every quadrant is 12x12 > 10. -/
theorem extract_regions_quadrants_witness :
    ((0 : ℚ) < 1/10 ∧ (1 : ℚ)/10 < 1/2 ∧ 1 ≤ ⌊(1/10 : ℚ) * ((20 : Nat) : ℚ)⌋) ∧
    (∀ s ∈ extract_regions 20 20 (1/10), s.1 ≠ "full" →
      (((20 : Nat) : ℚ)/2 < (s.2.1 : ℚ) ∧ ((20 : Nat) : ℚ)/2 < (s.2.2 : ℚ))) :=
  ⟨⟨by norm_num, by norm_num, by norm_num⟩,
   extract_regions_quadrants 20 20 (1/10) (by norm_num) (by norm_num)
     (by norm_num) (by norm_num)⟩

section BuildResultsLemmas

/-- The page keys of the built results are the requested keys filtered
by presence in the metadata store. -/
theorem buildResults_keys (db : List DocumentRow) (ps : List (PageKey × ℚ)) :
    ∀ ks : List PageKey,
      (buildResults db ps ks).map (fun r => (r.docId, r.pageNum)) =
        ks.filter (fun k => (dbGetDocument db k.1).isSome)
  | [] => rfl
  | k :: ks => by
    cases hdoc : dbGetDocument db k.1 with
    | some doc =>
      simp [buildResults, List.filterMap_cons, hdoc, List.filter_cons]
      exact buildResults_keys db ps ks
    | none =>
      simp [buildResults, List.filterMap_cons, hdoc, List.filter_cons]
      exact buildResults_keys db ps ks

/-- Every built result carries the visual aggregate score of its own
page key, with default `0.0`. -/
theorem buildResults_score (db : List DocumentRow) (ps : List (PageKey × ℚ)) :
    ∀ ks : List PageKey, ∀ r ∈ buildResults db ps ks,
      r.score = (alookup (r.docId, r.pageNum) ps).getD 0
  | [] => by simp [buildResults]
  | k :: ks => by
    intro r hr
    cases hdoc : dbGetDocument db k.1 with
    | some doc =>
      simp only [buildResults, List.filterMap_cons, hdoc, Option.map_some] at hr
      rcases List.mem_cons.mp hr with rfl | hr2
      · rfl
      · exact buildResults_score db ps ks r hr2
    | none =>
      simp only [buildResults, List.filterMap_cons, hdoc, Option.map_none] at hr
      exact buildResults_score db ps ks r hr

end BuildResultsLemmas

/-- Claim C10 (implicit): in fast mode with a non-empty text query and text
boost enabled, the returned pages follow the RRF-fused ranking of the
visual and text lists (truncated, and filtered by C5 presence), but the
score attached to each result is the page's visual max-region aggregate
looked up with default `0.0` — a page present only in the text list is
reported with score `0.0`, and the fused score itself never appears in
the results. -/
theorem searchFast_text_fusion (settings : RetrievalSettings) (index : FaissIndex)
    (db : List DocumentRow) (bm25f : String → Nat → List (PageKey × ℚ)) (qEmb : List ℚ)
    (t : String) (topK : Nat) (ht : t ≠ "") (hb : settings.enableTextBoost = true) :
    (searchFast settings index db bm25f qEmb (some t) topK).map
        (fun r => (r.docId, r.pageNum)) =
      ((((reciprocal_rank_fusion
          [aggregate_by_page (faissSearch index qEmb settings.stage1TopK),
           bm25f t settings.stage1TopK] 60).take
            (if topK = 0 then settings.defaultResultK else topK)).map Prod.fst).filter
        (fun k => (dbGetDocument db k.1).isSome)) ∧
    (∀ r ∈ searchFast settings index db bm25f qEmb (some t) topK,
      r.score = (alookup (r.docId, r.pageNum)
        (aggregate_by_page (faissSearch index qEmb settings.stage1TopK))).getD 0) ∧
    (∀ r ∈ searchFast settings index db bm25f qEmb (some t) topK,
      alookup (r.docId, r.pageNum)
          (aggregate_by_page (faissSearch index qEmb settings.stage1TopK)) = none →
        r.score = 0) := by
  have hdec : decide (t ≠ "") = true := decide_eq_true ht
  have hres : searchFast settings index db bm25f qEmb (some t) topK =
      buildResults db (aggregate_by_page (faissSearch index qEmb settings.stage1TopK))
        (((reciprocal_rank_fusion
            [aggregate_by_page (faissSearch index qEmb settings.stage1TopK),
             bm25f t settings.stage1TopK] 60).take
          (if topK = 0 then settings.defaultResultK else topK)).map Prod.fst) := by
    simp [searchFast, hdec, hb]
  refine ⟨?_, ?_, ?_⟩
  · rw [hres, buildResults_keys]
  · intro r hr
    rw [hres] at hr
    exact buildResults_score db _ _ r hr
  · intro r hr hnone
    rw [hres] at hr
    have hs := buildResults_score db _ _ r hr
    rw [hnone] at hs
    simpa using hs

/-- Witness for C10: one visual page `("d1", 0)` with score `1` and one
text-only page `("d2", 0)`; the theorem applies with the non-empty
query `"q"` and text boost on. -/
theorem searchFast_text_fusion_witness :
    ("q" ≠ "") ∧ (RetrievalSettings.mk 100 20 true).enableTextBoost = true ∧
    ((searchFast ⟨100, 20, true⟩ ⟨1, [[1]], [⟨"d1", 0, "full"⟩]⟩
        [⟨"d1", "a.pdf", "h1", 1⟩, ⟨"d2", "b.pdf", "h2", 1⟩]
        (fun _ _ => [(("d2", 0), 5)]) [1] (some "q") 2).map
          (fun r => (r.docId, r.pageNum)) =
      ((((reciprocal_rank_fusion
          [aggregate_by_page (faissSearch ⟨1, [[1]], [⟨"d1", 0, "full"⟩]⟩ [1]
              (RetrievalSettings.mk 100 20 true).stage1TopK),
           (fun (_ : String) (_ : Nat) => [(("d2", 0), (5 : ℚ))]) "q"
              (RetrievalSettings.mk 100 20 true).stage1TopK] 60).take
            (if (2 : Nat) = 0 then (RetrievalSettings.mk 100 20 true).defaultResultK
              else 2)).map Prod.fst).filter
        (fun k => (dbGetDocument [⟨"d1", "a.pdf", "h1", 1⟩, ⟨"d2", "b.pdf", "h2", 1⟩]
            k.1).isSome)) ∧
    (∀ r ∈ searchFast ⟨100, 20, true⟩ ⟨1, [[1]], [⟨"d1", 0, "full"⟩]⟩
        [⟨"d1", "a.pdf", "h1", 1⟩, ⟨"d2", "b.pdf", "h2", 1⟩]
        (fun _ _ => [(("d2", 0), 5)]) [1] (some "q") 2,
      r.score = (alookup (r.docId, r.pageNum)
        (aggregate_by_page (faissSearch ⟨1, [[1]], [⟨"d1", 0, "full"⟩]⟩ [1]
          (RetrievalSettings.mk 100 20 true).stage1TopK))).getD 0) ∧
    (∀ r ∈ searchFast ⟨100, 20, true⟩ ⟨1, [[1]], [⟨"d1", 0, "full"⟩]⟩
        [⟨"d1", "a.pdf", "h1", 1⟩, ⟨"d2", "b.pdf", "h2", 1⟩]
        (fun _ _ => [(("d2", 0), 5)]) [1] (some "q") 2,
      alookup (r.docId, r.pageNum)
          (aggregate_by_page (faissSearch ⟨1, [[1]], [⟨"d1", 0, "full"⟩]⟩ [1]
            (RetrievalSettings.mk 100 20 true).stage1TopK)) = none →
        r.score = 0)) :=
  ⟨by decide, rfl,
   searchFast_text_fusion ⟨100, 20, true⟩ ⟨1, [[1]], [⟨"d1", 0, "full"⟩]⟩
     [⟨"d1", "a.pdf", "h1", 1⟩, ⟨"d2", "b.pdf", "h2", 1⟩]
     (fun _ _ => [(("d2", 0), 5)]) [1] "q" 2 (by decide) rfl⟩
